import Mathlib

/-!
Shallow embedding of the ryzenmon power monitor (`src/main.rs`): AMD RAPL
MSR sampling, topology detection, and the worker/publish cycle.

External effects are modelled as oracles:
* the sysfs topology tree is a function from cpu index to the contents of
  `/sys/devices/system/cpu/cpuN/topology/physical_package_id`
  (`none` = the file is unreadable);
* the per-core MSR devices are two read oracles (one per read pass, the
  100 ms sleep separating them) from core index and register address to
  the `i64` value read (`none` = open/seek/read failure);
* `f64` arithmetic is idealised as exact rational arithmetic (all values
  reaching it here are exact in both models);
* a Rust panic (out-of-bounds slice index) is a distinct result
  constructor, kept apart from `io::Error` returns.
-/

/-- MSR address of the AMD power-unit register (`AMD_MSR_PWR_UNIT`). -/
def AMD_MSR_PWR_UNIT : Nat := 0xC0010299

/-- MSR address of the per-core energy counter (`AMD_MSR_CORE_ENERGY`). -/
def AMD_MSR_CORE_ENERGY : Nat := 0xC001029A

/-- MSR address of the package energy counter (`AMD_MSR_PACKAGE_ENERGY`). -/
def AMD_MSR_PACKAGE_ENERGY : Nat := 0xC001029B

/-- Mask selecting bits 8..12 of the power-unit register (`AMD_ENERGY_UNIT_MASK`). -/
def AMD_ENERGY_UNIT_MASK : Nat := 0x1F00

/-- Upper bound of the topology scan (`MAX_CPUS`). -/
def MAX_CPUS : Nat := 1024

/-- Size of the `package_map` vector (`MAX_PACKAGES`). -/
def MAX_PACKAGES : Nat := 16

/-- Rust `v as u64` (or `v as usize` on a 64-bit target) for a signed value:
two's-complement reinterpretation modulo `2^64`. -/
def u64OfInt (v : Int) : Nat := (v % (2 : Int) ^ 64).toNat

/-- Value of a run of ASCII digits; `none` if the run is empty or contains a
non-digit. Models the digit-run part of Rust `str::parse::<i32>`. -/
def digitsVal (l : List Char) : Option Nat :=
  if l.isEmpty then none
  else
    l.foldl
      (fun acc c =>
        match acc with
        | none => none
        | some n => if c.isDigit then some (n * 10 + (c.toNat - 48)) else none)
      (some 0)

/-- Rust `str::parse::<i32>`: optional sign, then one or more ASCII digits,
with the value required to fit in `i32`; anything else is `Err` (`none`). -/
def parseI32 (s : String) : Option Int :=
  let signDigits : Int × List Char :=
    match s.data with
    | '-' :: rest => (-1, rest)
    | '+' :: rest => (1, rest)
    | cs => (1, cs)
  match digitsVal signDigits.2 with
  | none => none
  | some n =>
    let v : Int := signDigits.1 * n
    if -(2 : Int) ^ 31 ≤ v ∧ v ≤ 2 ^ 31 - 1 then some v else none

/-- Rust `str::trim`: strip leading and trailing whitespace. -/
def rustTrim (s : String) : String :=
  ⟨((s.data.dropWhile Char.isWhitespace).reverse.dropWhile Char.isWhitespace).reverse⟩

/-- One step of the `detect_packages` scan loop (`main.rs` lines 76-87).
`rem` is the remaining fuel (starting at `MAX_CPUS`), `i` the current cpu
index, `pm` the `package_map` vector, `total` the `total_cores` accumulator.
`some t` models returning `t`; `none` models the panic raised by Rust when
`package_map[package as usize]` indexes out of bounds. -/
def detectAux (fs : Nat → Option String) : Nat → Nat → List Int → Nat → Option Nat
  | 0, _, _, total => some total
  | rem + 1, i, pm, total =>
    match fs i with
    | none => some total
    | some contents =>
      let package : Int := (parseI32 (rustTrim contents)).getD (-1)
      let idx : Nat := u64OfInt package
      if idx < pm.length then
        detectAux fs rem (i + 1)
          (if pm.getD idx 0 = -1 then pm.set idx (Int.ofNat i) else pm) (i + 1)
      else none

/-- `detect_packages` from `main.rs`, over an abstract sysfs `fs` mapping cpu
index to the contents of its `physical_package_id` file (`none` = unreadable).
`some n` models `Ok(n)` (the Rust function never returns `Err`); `none`
models a panic. `total` is updated to `i + 1` on every successful read, so at
loop entry it always equals `i`. -/
def detect_packages (fs : Nat → Option String) : Option Nat :=
  detectAux fs MAX_CPUS 0 (List.replicate MAX_PACKAGES (-1)) 0

/-- The MSR side of the world for one sampling cycle: whether `open_msr`
succeeds per core, and the two read passes (before and after the 100 ms
sleep), each mapping core index and register address to the value read. -/
structure MsrWorld where
  openOk : Nat → Bool
  readA : Nat → Nat → Option Int
  readB : Nat → Nat → Option Int

/-- The `PowerMetrics` struct from `main.rs`, with `f64` as `ℚ`. -/
structure PowerMetrics where
  core_watts : List ℚ
  core_sum : ℚ
  package_watts : ℚ
deriving DecidableEq, Repr

/-- Result of `rapl_msr_amd_core`: `ok` = `Ok(metrics)`, `err` = `Err(_)`
(an `io::Error` propagated by `?`), `panic` = a Rust panic (out-of-bounds
vector index). -/
inductive RaplResult where
  | ok (m : PowerMetrics)
  | err
  | panic
deriving DecidableEq, Repr

/-- Exponent extracted from the power-unit register (`main.rs` line 122):
`(core_energy_units & AMD_ENERGY_UNIT_MASK) >> 8`, after the `as u64` cast. -/
def energyUnitExponent (v : Int) : Nat :=
  (u64OfInt v &&& AMD_ENERGY_UNIT_MASK) >>> 8

/-- Scale factor `energy_unit_d = 0.5f64.powf(energy_unit)` (`main.rs` line 123). -/
def energyUnitScale (v : Int) : ℚ :=
  (1 / 2 : ℚ) ^ energyUnitExponent v

/-- One read pass over a list of core indices (`main.rs` lines 125-131 and
135-141): for each core read the core-energy then the package-energy counter,
scale both by `u`; any failed read aborts the pass (`?`). -/
def readPassAux (rd : Nat → Nat → Option Int) (u : ℚ) : List Nat → Option (List (ℚ × ℚ))
  | [] => some []
  | i :: rest =>
    match rd i AMD_MSR_CORE_ENERGY with
    | none => none
    | some cr =>
      match rd i AMD_MSR_PACKAGE_ENERGY with
      | none => none
      | some pr =>
        match readPassAux rd u rest with
        | none => none
        | some tl => some (((cr : ℚ) * u, (pr : ℚ) * u) :: tl)

/-- The arithmetic tail of `rapl_msr_amd_core` (`main.rs` lines 143-157):
per-core watts `(core_energy_delta[i] - core_energy[i]) * 10.0`, their
running sum, and `package_watts = (package_delta[0] - package[0]) * 10.0`. -/
def computeMetrics (pass1 pass2 : List (ℚ × ℚ)) (k : Nat) : PowerMetrics :=
  { core_watts :=
      (List.range k).map
        (fun i => ((pass2.map Prod.fst).getD i 0 - (pass1.map Prod.fst).getD i 0) * 10)
    core_sum :=
      ((List.range k).map
        (fun i => ((pass2.map Prod.fst).getD i 0 - (pass1.map Prod.fst).getD i 0) * 10)).sum
    package_watts := ((pass2.map Prod.snd).getD 0 0 - (pass1.map Prod.snd).getD 0 0) * 10 }

/-- `rapl_msr_amd_core` from `main.rs`. Only cores `0 .. total_cores/2 - 1`
are opened and read. When `total_cores/2 = 0` the open loop is empty and the
first `read_msr(&mut files[0], ..)` indexes the empty `files` vector: a panic.
Any open or read failure propagates as `Err` via `?`. -/
def rapl_msr_amd_core (w : MsrWorld) (total_cores : Nat) : RaplResult :=
  if (List.range (total_cores / 2)).all w.openOk then
    if total_cores / 2 = 0 then .panic
    else
      match w.readA 0 AMD_MSR_PWR_UNIT with
      | none => .err
      | some v =>
        match readPassAux w.readA (energyUnitScale v) (List.range (total_cores / 2)) with
        | none => .err
        | some pass1 =>
          match readPassAux w.readB (energyUnitScale v) (List.range (total_cores / 2)) with
          | none => .err
          | some pass2 => .ok (computeMetrics pass1 pass2 (total_cores / 2))
  else .err

/-- One cycle's world: the MSR oracles plus whether the InfluxDB upload
succeeds. -/
structure CycleWorld extends MsrWorld where
  uploadOk : Bool

/-- Status of one `worker` call: `Ok(())`, `Err(_)`, or a propagated panic. -/
inductive WStatus where
  | ok
  | err
  | panic
deriving DecidableEq, Repr

/-- Observable outcome of one `worker` call: its returned status, the metrics
passed to `upload` (if `upload` was called at all), and whether an
`Upload failed` line was logged. -/
structure WorkerOut where
  status : WStatus
  published : Option PowerMetrics
  loggedUploadFailure : Bool
deriving DecidableEq, Repr

/-- `worker` from `main.rs` (lines 182-190): sample; on sampling error return
`Err` without calling `upload`; on success call `upload` and swallow (but log)
any upload failure, returning `Ok(())` either way. -/
def worker (w : CycleWorld) (total_cores : Nat) : WorkerOut :=
  match rapl_msr_amd_core w.toMsrWorld total_cores with
  | .ok m => { status := .ok, published := some m, loggedUploadFailure := !w.uploadOk }
  | .err => { status := .err, published := none, loggedUploadFailure := false }
  | .panic => { status := .panic, published := none, loggedUploadFailure := false }

/-- The fixed inter-cycle sleep of the main loop, in seconds (`main.rs`
line 219: `Duration::from_secs(10)`). -/
def loopPeriodSecs : Nat := 10

/-- The fixed sampling window inside one cycle, in microseconds (`main.rs`
line 133: `Duration::from_micros(100000)`). -/
def samplingWindowMicros : Nat := 100000

/-- The steady-state loop of `main` (lines 215-220): each iteration runs
`worker` on that iteration's world, logs any worker error, sleeps the fixed
period, and continues; a panic tears the process down. `mainLoop ws cores k`
is the trace of the first `k` iterations (cut short only by a panic). -/
def mainLoop (ws : Nat → CycleWorld) (cores : Nat) : Nat → List WorkerOut
  | 0 => []
  | k + 1 =>
    let o := worker (ws 0) cores
    if o.status = .panic then [o]
    else o :: mainLoop (fun t => ws (t + 1)) cores k

/-- A read oracle answering the power-unit register with `pu`, the core-energy
counter of core `i` with `c i`, and the package-energy counter with `p i`. -/
def oracleRead (pu : Int) (c p : Nat → Int) : Nat → Nat → Option Int := fun i a =>
  if a = AMD_MSR_PWR_UNIT then some pu
  else if a = AMD_MSR_CORE_ENERGY then some (c i)
  else if a = AMD_MSR_PACKAGE_ENERGY then some (p i)
  else none

/-- A fully successful MSR world built from per-pass counter functions. -/
def oracleWorld (pu : Int) (c1 p1 c2 p2 : Nat → Int) : MsrWorld :=
  { openOk := fun _ => true
    readA := oracleRead pu c1 p1
    readB := oracleRead pu c2 p2 }

/-- Concrete demonstration world: unit register `0x0A00`, first-pass counters
core 1000 / package 5000, second-pass counters core 2000 / package 7000. -/
def demoW : MsrWorld :=
  oracleWorld 0x0A00 (fun _ => 1000) (fun _ => 5000) (fun _ => 2000) (fun _ => 7000)

/-- `demoW` with every second-pass read on cores other than core 0 destroyed;
indistinguishable from `demoW` on the cores a 2-core sample set touches. -/
def demoWJunk : MsrWorld :=
  { demoW with readB := fun i a => if i = 0 then demoW.readB i a else none }

/-- `demoW` with the whole second read pass failing. -/
def cwFail : CycleWorld :=
  { toMsrWorld := { demoW with readB := fun _ _ => none }, uploadOk := true }

/-- `demoW` as a cycle world whose InfluxDB upload fails. -/
def cwPubFail : CycleWorld :=
  { toMsrWorld := demoW, uploadOk := false }

/-- The metrics `rapl_msr_amd_core` computes on `demoW` with 2 cores:
one sampled core, `(2000 - 1000) / 1024 * 10` core watts, package
`(7000 - 5000) / 1024 * 10`. -/
def demoMetrics : PowerMetrics :=
  { core_watts := [625 / 64], core_sum := 625 / 64, package_watts := 625 / 32 }

/-- A sysfs in which cpu0's `physical_package_id` file reads `"16"` (a package
id out of range for the 16-entry `package_map`) and cpu1's is unreadable. -/
def fsBad16 : Nat → Option String := fun i => if i = 0 then some "16" else none

/-- A sysfs in which cpu0's `physical_package_id` file holds unparsable text
and cpu1's is unreadable. -/
def fsGarbage : Nat → Option String := fun i => if i = 0 then some "zen3" else none

/-- A sysfs with 1025 readable cpu identifier files (indices 0..1024, all in
package 0) and nothing beyond. -/
def fsAll1025 : Nat → Option String := fun i => if i ≤ 1024 then some "0" else none

/-- A sysfs with exactly two readable cpu identifier files, both in package 0. -/
def fsTwo : Nat → Option String := fun i => if i < 2 then some "0" else none

/-- First-pass package counters: 5000 on core 0, 1111 elsewhere. -/
def pkgA1 : Nat → Int := fun i => if i = 0 then 5000 else 1111

/-- Second-pass package counters: 7000 on core 0, 2222 elsewhere. -/
def pkgA2 : Nat → Int := fun i => if i = 0 then 7000 else 2222

/-- First-pass package counters agreeing with `pkgA1` only on core 0. -/
def pkgB1 : Nat → Int := fun i => if i = 0 then 5000 else 3333

/-- Second-pass package counters agreeing with `pkgA2` only on core 0. -/
def pkgB2 : Nat → Int := fun i => if i = 0 then 7000 else 4444

/-- A 4-core demonstration world with per-core package counters `pkgA1`/`pkgA2`. -/
def demoW6 : MsrWorld := oracleWorld 0x0A00 (fun _ => 1000) pkgA1 (fun _ => 2000) pkgA2

/-- Like `demoW6` but with the non-designated cores' package counters changed. -/
def demoW6b : MsrWorld := oracleWorld 0x0A00 (fun _ => 1000) pkgB1 (fun _ => 2000) pkgB2

/-- A world whose counters do not move between the two passes. -/
def demoFlat : MsrWorld :=
  oracleWorld 0x0A00 (fun _ => 4242) (fun _ => 5000) (fun _ => 4242) (fun _ => 7000)

/-! ### Helper lemmas -/

theorem list_all_congr (f g : Nat → Bool) (l : List Nat) (h : ∀ i ∈ l, f i = g i) :
    l.all f = l.all g := by
  induction l with
  | nil => rfl
  | cons a l ih =>
    simp only [List.all_cons, h a (List.mem_cons_self a l),
      ih fun i hi => h i (List.mem_cons_of_mem a hi)]

theorem readPassAux_congr (rd rd' : Nat → Nat → Option Int) (u : ℚ) (l : List Nat)
    (h : ∀ i ∈ l, ∀ a, rd i a = rd' i a) :
    readPassAux rd u l = readPassAux rd' u l := by
  induction l with
  | nil => rfl
  | cons a l ih =>
    simp only [readPassAux, h a (List.mem_cons_self a l),
      ih fun i hi b => h i (List.mem_cons_of_mem a hi) b]

theorem readPassAux_all_some (rd : Nat → Nat → Option Int) (u : ℚ) (c p : Nat → Int)
    (l : List Nat)
    (hc : ∀ i ∈ l, rd i AMD_MSR_CORE_ENERGY = some (c i))
    (hp : ∀ i ∈ l, rd i AMD_MSR_PACKAGE_ENERGY = some (p i)) :
    readPassAux rd u l = some (l.map fun i => ((c i : ℚ) * u, (p i : ℚ) * u)) := by
  induction l with
  | nil => rfl
  | cons a l ih =>
    simp only [readPassAux, hc a (List.mem_cons_self a l), hp a (List.mem_cons_self a l),
      ih (fun i hi => hc i (List.mem_cons_of_mem a hi))
        (fun i hi => hp i (List.mem_cons_of_mem a hi)),
      List.map_cons]

theorem readPassAux_fail (rd : Nat → Nat → Option Int) (u : ℚ) (l : List Nat) (i : Nat)
    (hi : i ∈ l)
    (h : rd i AMD_MSR_CORE_ENERGY = none ∨ rd i AMD_MSR_PACKAGE_ENERGY = none) :
    readPassAux rd u l = none := by
  induction l with
  | nil => cases hi
  | cons a l ih =>
    simp only [readPassAux]
    rcases List.mem_cons.mp hi with rfl | hmem
    · rcases h with hc | hp
      · rw [hc]
      · cases hca : rd i AMD_MSR_CORE_ENERGY with
        | none => rfl
        | some cr => rw [hp]
    · cases hca : rd a AMD_MSR_CORE_ENERGY with
      | none => rfl
      | some cr =>
        cases hpa : rd a AMD_MSR_PACKAGE_ENERGY with
        | none => rfl
        | some pr => rw [ih hmem]

theorem getD_map_range (f : Nat → ℚ) (k i : Nat) (hi : i < k) (d : ℚ) :
    ((List.range k).map f).getD i d = f i := by
  have hlen : i < ((List.range k).map f).length := by simpa using hi
  rw [List.getD_eq_getElem _ _ hlen]
  simp

/-- Master success lemma: when every open succeeds, the power-unit register
reads `v`, and every counter read succeeds with the given per-core values,
`rapl_msr_amd_core` returns exactly the metrics built from those values. -/
theorem rapl_ok (w : MsrWorld) (n : Nat) (v : Int) (c1 p1 c2 p2 : Nat → Int)
    (hk : 0 < n / 2)
    (hopen : ∀ i < n / 2, w.openOk i = true)
    (hpu : w.readA 0 AMD_MSR_PWR_UNIT = some v)
    (h1 : ∀ i < n / 2, w.readA i AMD_MSR_CORE_ENERGY = some (c1 i))
    (h2 : ∀ i < n / 2, w.readA i AMD_MSR_PACKAGE_ENERGY = some (p1 i))
    (h3 : ∀ i < n / 2, w.readB i AMD_MSR_CORE_ENERGY = some (c2 i))
    (h4 : ∀ i < n / 2, w.readB i AMD_MSR_PACKAGE_ENERGY = some (p2 i)) :
    rapl_msr_amd_core w n =
      .ok
        { core_watts :=
            (List.range (n / 2)).map
              (fun i => ((c2 i : ℚ) * energyUnitScale v - (c1 i : ℚ) * energyUnitScale v) * 10)
          core_sum :=
            ((List.range (n / 2)).map
              (fun i =>
                ((c2 i : ℚ) * energyUnitScale v - (c1 i : ℚ) * energyUnitScale v) * 10)).sum
          package_watts :=
            ((p2 0 : ℚ) * energyUnitScale v - (p1 0 : ℚ) * energyUnitScale v) * 10 } := by
  have hall : (List.range (n / 2)).all w.openOk = true :=
    List.all_eq_true.mpr fun i hi => hopen i (List.mem_range.mp hi)
  have hA :=
    readPassAux_all_some w.readA (energyUnitScale v) c1 p1 (List.range (n / 2))
      (fun i hi => h1 i (List.mem_range.mp hi)) (fun i hi => h2 i (List.mem_range.mp hi))
  have hB :=
    readPassAux_all_some w.readB (energyUnitScale v) c2 p2 (List.range (n / 2))
      (fun i hi => h3 i (List.mem_range.mp hi)) (fun i hi => h4 i (List.mem_range.mp hi))
  rw [rapl_msr_amd_core, if_pos hall, if_neg (Nat.pos_iff_ne_zero.mp hk)]
  simp only [hpu, hA, hB]
  congr 1
  unfold computeMetrics
  have hf1 :
      (((List.range (n / 2)).map fun j =>
          ((c1 j : ℚ) * energyUnitScale v, (p1 j : ℚ) * energyUnitScale v)).map Prod.fst) =
        (List.range (n / 2)).map fun j => (c1 j : ℚ) * energyUnitScale v := by
    rw [List.map_map]; rfl
  have hf2 :
      (((List.range (n / 2)).map fun j =>
          ((c2 j : ℚ) * energyUnitScale v, (p2 j : ℚ) * energyUnitScale v)).map Prod.fst) =
        (List.range (n / 2)).map fun j => (c2 j : ℚ) * energyUnitScale v := by
    rw [List.map_map]; rfl
  have hs1 :
      (((List.range (n / 2)).map fun j =>
          ((c1 j : ℚ) * energyUnitScale v, (p1 j : ℚ) * energyUnitScale v)).map Prod.snd) =
        (List.range (n / 2)).map fun j => (p1 j : ℚ) * energyUnitScale v := by
    rw [List.map_map]; rfl
  have hs2 :
      (((List.range (n / 2)).map fun j =>
          ((c2 j : ℚ) * energyUnitScale v, (p2 j : ℚ) * energyUnitScale v)).map Prod.snd) =
        (List.range (n / 2)).map fun j => (p2 j : ℚ) * energyUnitScale v := by
    rw [List.map_map]; rfl
  rw [hf1, hf2, hs1, hs2]
  have hcw :
      (List.range (n / 2)).map
          (fun i =>
            (((List.range (n / 2)).map fun j => (c2 j : ℚ) * energyUnitScale v).getD i 0 -
              ((List.range (n / 2)).map fun j => (c1 j : ℚ) * energyUnitScale v).getD i 0) * 10) =
        (List.range (n / 2)).map
          (fun i => ((c2 i : ℚ) * energyUnitScale v - (c1 i : ℚ) * energyUnitScale v) * 10) := by
    refine List.map_congr_left fun i hi => ?_
    rw [getD_map_range _ _ _ (List.mem_range.mp hi), getD_map_range _ _ _ (List.mem_range.mp hi)]
  rw [hcw, getD_map_range _ _ _ hk, getD_map_range _ _ _ hk]

theorem u64OfInt_small (p : Int) (h0 : 0 ≤ p) (h16 : p < 16) :
    u64OfInt p = p.toNat ∧ p.toNat < 16 := by
  have h64 : p < (2 : Int) ^ 64 := lt_trans h16 (by norm_num)
  unfold u64OfInt
  rw [Int.emod_eq_of_lt h0 h64]
  omega

theorem rapl_ok_length (w : MsrWorld) (n : Nat) (m : PowerMetrics)
    (h : rapl_msr_amd_core w n = .ok m) : m.core_watts.length = n / 2 := by
  unfold rapl_msr_amd_core at h
  split at h
  · split at h
    · exact RaplResult.noConfusion h
    · split at h
      · exact RaplResult.noConfusion h
      · split at h
        · exact RaplResult.noConfusion h
        · split at h
          · exact RaplResult.noConfusion h
          · injection h with h2
            rw [← h2]
            simp [computeMetrics]
  · exact RaplResult.noConfusion h

/-- Correctness of the topology scan when every readable file carries an
in-range package id: `detectAux` runs from index `i` (with `total = i`, the
loop invariant) up to the first unreadable index `n` and returns `n`. -/
theorem detectAux_spec (fs : Nat → Option String) (c : Nat → String) (n : Nat)
    (hstop : fs n = none) :
    ∀ (rem : Nat), ∀ (i : Nat) (pm : List Int), pm.length = MAX_PACKAGES →
      i ≤ n → n ≤ i + rem →
      (∀ j, i ≤ j → j < n → fs j = some (c j)) →
      (∀ j, i ≤ j → j < n →
        ∃ p : Int, parseI32 (rustTrim (c j)) = some p ∧ 0 ≤ p ∧ p < 16) →
      detectAux fs rem i pm i = some n := by
  intro rem
  induction rem with
  | zero =>
    intro i pm _ hin hni _ _
    have hi : i = n := le_antisymm hin (by omega)
    simp [detectAux, hi]
  | succ rem ih =>
    intro i pm hpm hin hni hread hvalid
    rcases eq_or_lt_of_le hin with rfl | hlt
    · simp [detectAux, hstop]
    · have hfs := hread i le_rfl hlt
      obtain ⟨p, hp, hp0, hp16⟩ := hvalid i le_rfl hlt
      have hsmall := u64OfInt_small p hp0 hp16
      have hidx : u64OfInt p < pm.length := by
        rw [hpm]; simp only [MAX_PACKAGES]; omega
      simp only [detectAux, hfs, hp, Option.getD_some]
      rw [if_pos hidx]
      refine ih (i + 1) _ ?_ (by omega) (by omega)
        (fun j hj hjn => hread j (by omega) hjn)
        (fun j hj hjn => hvalid j (by omega) hjn)
      split <;> simp [hpm]

/-! ### Claim theorems -/

/-- C1: with a core count whose sampled set is empty (`total_cores/2 = 0`,
i.e. `total_cores = 0` or `1`), `rapl_msr_amd_core` does NOT complete as a
no-op cycle: `files[0]` indexes the empty handle vector and the call panics
(and the panic propagates out of `worker`), contradicting the spec's
requirement that this be a no-op cycle rather than a crash. -/
theorem empty_sample_set_panics (w : MsrWorld) (cw : CycleWorld) :
    rapl_msr_amd_core w 0 = .panic ∧ rapl_msr_amd_core w 1 = .panic ∧
    (worker cw 0).status = .panic :=
  ⟨rfl, rfl, rfl⟩

/-- C3: the decoder extracts a 5-bit exponent `E = (raw & 0x1F00) >> 8`
(so `E < 32`) and yields the scale factor `2^-E` joules per count; for the
raw power-unit value `0x0A00` the exponent is 10 and the unit is `1/1024`. -/
theorem energy_unit_decoding :
    (∀ v : Int,
      energyUnitExponent v < 32 ∧
      energyUnitScale v = (2 : ℚ) ^ (-(energyUnitExponent v : ℤ))) ∧
    energyUnitExponent 0x0A00 = 10 ∧ energyUnitScale 0x0A00 = 1 / 1024 := by
  refine ⟨fun v => ⟨?_, ?_⟩, by decide, ?_⟩
  · have hle : u64OfInt v &&& AMD_ENERGY_UNIT_MASK < 32 * 2 ^ 8 :=
      lt_of_le_of_lt Nat.and_le_right (by norm_num [AMD_ENERGY_UNIT_MASK])
    unfold energyUnitExponent
    rw [Nat.shiftRight_eq_div_pow]
    exact (Nat.div_lt_iff_lt_mul (by norm_num)).mpr hle
  · unfold energyUnitScale
    rw [zpow_neg, zpow_natCast, one_div, inv_pow]
  · rw [energyUnitScale, show energyUnitExponent 0x0A00 = 10 from by decide]
    norm_num

/-- C9: topology detection is not total in the contents of a readable
identifier file: unparsable contents are mapped to `-1` and an id of 16 is
out of range, and in both cases the 16-entry `package_map` is indexed out of
bounds, a panic (`none`), instead of any core count being returned. -/
theorem detect_panics_on_bad_package_id :
    parseI32 (rustTrim "zen3") = none ∧
    detect_packages fsGarbage = none ∧
    detect_packages fsBad16 = none :=
  ⟨by decide, by decide, by decide⟩

set_option maxRecDepth 10000 in
/-- C5 counterexample: the claim fails as stated. With cpu0's file readable
but holding `"16"` (resp. any 1025 files readable), the detector does not
return the number of readable indices: it panics on the out-of-range package
id (resp. caps the scan at `MAX_CPUS = 1024`). -/
theorem topology_detection_claim_false :
    (fsBad16 0).isSome = true ∧ fsBad16 1 = none ∧
    detect_packages fsBad16 ≠ some 1 ∧
    fsAll1025 1024 = some "0" ∧ fsAll1025 1025 = none ∧
    detect_packages fsAll1025 ≠ some 1025 ∧
    detect_packages fsAll1025 = some 1024 := by
  have hcap : detect_packages fsAll1025 = some 1024 := by decide
  refine ⟨rfl, rfl, by decide, rfl, rfl, ?_, hcap⟩
  rw [hcap]
  decide

/-- C5 (amended): for `n ≤ MAX_CPUS`, if the identifier files at indices
`0..n-1` are readable with contents that (after trimming) parse to package
ids in `0..15`, and the file at index `n` is unreadable, detection returns
`n`; and it returns 0 whenever index 0 is unreadable. -/
theorem topology_detection_count (fs : Nat → Option String) (n : Nat) (c : Nat → String)
    (hn : n ≤ MAX_CPUS)
    (hread : ∀ i < n, fs i = some (c i))
    (hvalid : ∀ i < n,
      ∃ p : Int, parseI32 (rustTrim (c i)) = some p ∧ 0 ≤ p ∧ p < 16)
    (hstop : fs n = none) :
    detect_packages fs = some n ∧
    ∀ gs : Nat → Option String, gs 0 = none → detect_packages gs = some 0 := by
  constructor
  · exact detectAux_spec fs c n hstop MAX_CPUS 0 _ (by simp [MAX_PACKAGES])
      (Nat.zero_le n) (by simpa using hn)
      (fun j _ hj => hread j hj) (fun j _ hj => hvalid j hj)
  · intro gs hgs
    exact detectAux_spec gs (fun _ => "") 0 hgs MAX_CPUS 0 _ (by simp [MAX_PACKAGES])
      le_rfl (by simp) (by omega) (by omega)

/-- C5 witness: the amended claim at a concrete sysfs with two readable
package-0 files, and the zero case at a sysfs with nothing readable. -/
theorem topology_detection_count_witness :
    detect_packages fsTwo = some 2 ∧ detect_packages (fun _ => none) = some 0 := by
  have h :=
    topology_detection_count fsTwo 2 (fun _ => "0") (by norm_num [MAX_CPUS])
      (fun i hi => by simp [fsTwo, hi])
      (fun i _ =>
        ⟨0, show parseI32 (rustTrim "0") = some 0 by decide, le_refl 0,
          show (0 : Int) < 16 by decide⟩)
      (by decide)
  exact ⟨h.1, h.2 (fun _ => none) rfl⟩

/-- C2: if any register open or read for any sampled core fails, in either
pass, the sample call returns `Err`, `worker` produces no `PowerMetrics` and
never calls `upload`, and the loop still runs the next cycle after the fixed
10-second period. -/
theorem read_failure_aborts_cycle (w : CycleWorld) (n : Nat)
    (hfail :
      (∃ i < n / 2, w.openOk i = false) ∨
      (∃ i < n / 2,
        w.readA i AMD_MSR_CORE_ENERGY = none ∨ w.readA i AMD_MSR_PACKAGE_ENERGY = none) ∨
      (∃ i < n / 2,
        w.readB i AMD_MSR_CORE_ENERGY = none ∨ w.readB i AMD_MSR_PACKAGE_ENERGY = none)) :
    rapl_msr_amd_core w.toMsrWorld n = .err ∧
    worker w n = { status := .err, published := none, loggedUploadFailure := false } ∧
    (∀ ws : Nat → CycleWorld, ws 0 = w →
      ∀ k, mainLoop ws n (k + 1) = worker w n :: mainLoop (fun t => ws (t + 1)) n k) ∧
    loopPeriodSecs = 10 := by
  have hk : 0 < n / 2 := by
    rcases hfail with ⟨i, hi, _⟩ | ⟨i, hi, _⟩ | ⟨i, hi, _⟩ <;> omega
  have herr : rapl_msr_amd_core w.toMsrWorld n = .err := by
    by_cases hall : (List.range (n / 2)).all w.toMsrWorld.openOk
    · rcases hfail with ⟨i, hi, hio⟩ | ⟨i, hi, hio⟩ | ⟨i, hi, hio⟩
      · exact absurd (List.all_eq_true.mp hall i (List.mem_range.mpr hi)) (by simp [hio])
      · rw [rapl_msr_amd_core, if_pos hall, if_neg (Nat.pos_iff_ne_zero.mp hk)]
        cases hv : w.toMsrWorld.readA 0 AMD_MSR_PWR_UNIT with
        | none => rfl
        | some v =>
          have hf := readPassAux_fail w.toMsrWorld.readA (energyUnitScale v)
            (List.range (n / 2)) i (List.mem_range.mpr hi) hio
          simp only [hf]
      · rw [rapl_msr_amd_core, if_pos hall, if_neg (Nat.pos_iff_ne_zero.mp hk)]
        cases hv : w.toMsrWorld.readA 0 AMD_MSR_PWR_UNIT with
        | none => rfl
        | some v =>
          have hf := readPassAux_fail w.toMsrWorld.readB (energyUnitScale v)
            (List.range (n / 2)) i (List.mem_range.mpr hi) hio
          cases hp1 : readPassAux w.toMsrWorld.readA (energyUnitScale v)
              (List.range (n / 2)) with
          | none => simp only [hp1]
          | some pass1 => simp only [hp1, hf]
    · rw [rapl_msr_amd_core, if_neg hall]
  have hw : worker w n = { status := .err, published := none, loggedUploadFailure := false } := by
    simp [worker, herr]
  refine ⟨herr, hw, fun ws hws k => ?_, rfl⟩
  simp [mainLoop, hws, hw]

/-- C2 witness: a concrete 2-core world whose whole second read pass fails. -/
theorem read_failure_aborts_cycle_witness :
    rapl_msr_amd_core cwFail.toMsrWorld 2 = .err ∧
    worker cwFail 2 = { status := .err, published := none, loggedUploadFailure := false } ∧
    mainLoop (fun _ => cwFail) 2 1 = [worker cwFail 2] := by
  have h :=
    read_failure_aborts_cycle cwFail 2
      (Or.inr (Or.inr ⟨0, by decide, Or.inl rfl⟩))
  exact ⟨h.1, h.2.1, h.2.2.1 (fun _ => cwFail) rfl 0⟩

/-- C7: when sampling succeeds but the upload fails, the failure is logged
and does not propagate: `worker` still returns `Ok` with the computed metrics
handed (once) to `upload`, and the loop proceeds to the next iteration. -/
theorem publish_failure_nonfatal (w : CycleWorld) (n : Nat) (m : PowerMetrics)
    (hok : rapl_msr_amd_core w.toMsrWorld n = .ok m) (hfail : w.uploadOk = false) :
    worker w n = { status := .ok, published := some m, loggedUploadFailure := true } ∧
    (∀ ws : Nat → CycleWorld, ws 0 = w →
      ∀ k, mainLoop ws n (k + 1) = worker w n :: mainLoop (fun t => ws (t + 1)) n k) := by
  have hw : worker w n = { status := .ok, published := some m, loggedUploadFailure := true } := by
    simp [worker, hok, hfail]
  exact ⟨hw, fun ws hws k => by simp [mainLoop, hws, hw]⟩

/-- C7 witness: the 2-core demonstration world with a failing upload sink. -/
theorem publish_failure_nonfatal_witness :
    worker cwPubFail 2 =
      { status := .ok, published := some demoMetrics, loggedUploadFailure := true } ∧
    mainLoop (fun _ => cwPubFail) 2 1 = [worker cwPubFail 2] := by
  have hok : rapl_msr_amd_core cwPubFail.toMsrWorld 2 = .ok demoMetrics := by
    show rapl_msr_amd_core demoW 2 = .ok demoMetrics
    rw [rapl_ok demoW 2 0x0A00 (fun _ => 1000) (fun _ => 5000) (fun _ => 2000) (fun _ => 7000)
      (by decide) (fun i _ => rfl) rfl (fun i _ => rfl) (fun i _ => rfl) (fun i _ => rfl)
      (fun i _ => rfl)]
    have hu : energyUnitScale 0x0A00 = 1 / 1024 := by
      rw [energyUnitScale, show energyUnitExponent 0x0A00 = 10 from by decide]
      norm_num
    simp only [demoMetrics, hu, show List.range 1 = [0] from rfl, List.map_cons, List.map_nil,
      List.sum_cons, List.sum_nil, RaplResult.ok.injEq, PowerMetrics.mk.injEq]
    norm_num
  have h := publish_failure_nonfatal cwPubFail 2 demoMetrics hok rfl
  exact ⟨h.1, h.2 (fun _ => cwPubFail) rfl 0⟩

/-- C4: on a successful cycle, the per-core watt value for sampled core `i`
equals the scaled joule delta between the second and first readings times 10:
`(E1_core[i] - E0_core[i]) * 10` with `E = raw * unit`. -/
theorem per_core_watts_formula (w : MsrWorld) (n : Nat) (v : Int) (c1 p1 c2 p2 : Nat → Int)
    (hk : 0 < n / 2)
    (hopen : ∀ i < n / 2, w.openOk i = true)
    (hpu : w.readA 0 AMD_MSR_PWR_UNIT = some v)
    (h1 : ∀ i < n / 2, w.readA i AMD_MSR_CORE_ENERGY = some (c1 i))
    (h2 : ∀ i < n / 2, w.readA i AMD_MSR_PACKAGE_ENERGY = some (p1 i))
    (h3 : ∀ i < n / 2, w.readB i AMD_MSR_CORE_ENERGY = some (c2 i))
    (h4 : ∀ i < n / 2, w.readB i AMD_MSR_PACKAGE_ENERGY = some (p2 i))
    (i : Nat) (hi : i < n / 2) :
    ∃ m, rapl_msr_amd_core w n = .ok m ∧
      m.core_watts.getD i 0 =
        ((c2 i : ℚ) * energyUnitScale v - (c1 i : ℚ) * energyUnitScale v) * 10 := by
  refine ⟨_, rapl_ok w n v c1 p1 c2 p2 hk hopen hpu h1 h2 h3 h4, ?_⟩
  show ((List.range (n / 2)).map
      (fun j => ((c2 j : ℚ) * energyUnitScale v - (c1 j : ℚ) * energyUnitScale v) * 10)).getD
        i 0 = _
  rw [getD_map_range _ _ _ hi]

/-- C4 witness: raw counters `E0 = 1000`, `E1 = 2000` with unit `1/1024`
give `1000/1024 * 10 = 625/64 = 9.765625` watts. -/
theorem per_core_watts_formula_witness :
    ∃ m, rapl_msr_amd_core demoW 2 = .ok m ∧ m.core_watts.getD 0 0 = 625 / 64 := by
  obtain ⟨m, hm, hv⟩ :=
    per_core_watts_formula demoW 2 0x0A00 (fun _ => 1000) (fun _ => 5000) (fun _ => 2000)
      (fun _ => 7000) (by decide) (fun i _ => rfl) rfl (fun i _ => rfl) (fun i _ => rfl)
      (fun i _ => rfl) (fun i _ => rfl) 0 (by decide)
  refine ⟨m, hm, ?_⟩
  rw [hv, show energyUnitScale 0x0A00 = 1 / 1024 from by
    rw [energyUnitScale, show energyUnitExponent 0x0A00 = 10 from by decide]; norm_num]
  norm_num

/-- C6: on a successful cycle, the package-watts output is the designated
core 0's package delta times 10, and is unchanged under any change to the
other cores' package readings (which are read and scaled but never surface). -/
theorem package_watts_designated (w w' : MsrWorld) (n : Nat) (v : Int)
    (c1 p1 c2 p2 c1' p1' c2' p2' : Nat → Int)
    (hk : 0 < n / 2)
    (hopen : ∀ i < n / 2, w.openOk i = true)
    (hpu : w.readA 0 AMD_MSR_PWR_UNIT = some v)
    (h1 : ∀ i < n / 2, w.readA i AMD_MSR_CORE_ENERGY = some (c1 i))
    (h2 : ∀ i < n / 2, w.readA i AMD_MSR_PACKAGE_ENERGY = some (p1 i))
    (h3 : ∀ i < n / 2, w.readB i AMD_MSR_CORE_ENERGY = some (c2 i))
    (h4 : ∀ i < n / 2, w.readB i AMD_MSR_PACKAGE_ENERGY = some (p2 i))
    (hopen' : ∀ i < n / 2, w'.openOk i = true)
    (hpu' : w'.readA 0 AMD_MSR_PWR_UNIT = some v)
    (h1' : ∀ i < n / 2, w'.readA i AMD_MSR_CORE_ENERGY = some (c1' i))
    (h2' : ∀ i < n / 2, w'.readA i AMD_MSR_PACKAGE_ENERGY = some (p1' i))
    (h3' : ∀ i < n / 2, w'.readB i AMD_MSR_CORE_ENERGY = some (c2' i))
    (h4' : ∀ i < n / 2, w'.readB i AMD_MSR_PACKAGE_ENERGY = some (p2' i))
    (hd0 : p1' 0 = p1 0) (hd1 : p2' 0 = p2 0) :
    ∃ m m', rapl_msr_amd_core w n = .ok m ∧ rapl_msr_amd_core w' n = .ok m' ∧
      m.package_watts =
        ((p2 0 : ℚ) * energyUnitScale v - (p1 0 : ℚ) * energyUnitScale v) * 10 ∧
      m'.package_watts = m.package_watts := by
  refine ⟨_, _, rapl_ok w n v c1 p1 c2 p2 hk hopen hpu h1 h2 h3 h4,
    rapl_ok w' n v c1' p1' c2' p2' hk hopen' hpu' h1' h2' h3' h4', rfl, ?_⟩
  show ((p2' 0 : ℚ) * energyUnitScale v - (p1' 0 : ℚ) * energyUnitScale v) * 10 = _
  rw [hd0, hd1]

/-- C6 witness: two 4-core worlds differing only in the non-designated core's
package counters produce the same package watts, `2000/1024 * 10 = 625/32`. -/
theorem package_watts_designated_witness :
    ∃ m m', rapl_msr_amd_core demoW6 4 = .ok m ∧ rapl_msr_amd_core demoW6b 4 = .ok m' ∧
      m.package_watts = 625 / 32 ∧ m'.package_watts = m.package_watts := by
  obtain ⟨m, m', hm, hm', hpw, hsame⟩ :=
    package_watts_designated demoW6 demoW6b 4 0x0A00
      (fun _ => 1000) pkgA1 (fun _ => 2000) pkgA2
      (fun _ => 1000) pkgB1 (fun _ => 2000) pkgB2
      (by decide) (fun i _ => rfl) rfl (fun i _ => rfl) (fun i _ => rfl) (fun i _ => rfl)
      (fun i _ => rfl) (fun i _ => rfl) rfl (fun i _ => rfl) (fun i _ => rfl) (fun i _ => rfl)
      (fun i _ => rfl) rfl rfl
  refine ⟨m, m', hm, hm', ?_, hsame⟩
  rw [hpw, show energyUnitScale 0x0A00 = 1 / 1024 from by
    rw [energyUnitScale, show energyUnitExponent 0x0A00 = 10 from by decide]; norm_num]
  norm_num [pkgA1, pkgA2]

/-- C8: if the second raw reading equals the first for every sampled core,
every per-core watt value and the aggregated total are exactly 0. -/
theorem flat_counters_zero (w : MsrWorld) (n : Nat) (v : Int) (c1 p1 c2 p2 : Nat → Int)
    (hk : 0 < n / 2)
    (hopen : ∀ i < n / 2, w.openOk i = true)
    (hpu : w.readA 0 AMD_MSR_PWR_UNIT = some v)
    (h1 : ∀ i < n / 2, w.readA i AMD_MSR_CORE_ENERGY = some (c1 i))
    (h2 : ∀ i < n / 2, w.readA i AMD_MSR_PACKAGE_ENERGY = some (p1 i))
    (h3 : ∀ i < n / 2, w.readB i AMD_MSR_CORE_ENERGY = some (c2 i))
    (h4 : ∀ i < n / 2, w.readB i AMD_MSR_PACKAGE_ENERGY = some (p2 i))
    (heq : ∀ i < n / 2, c2 i = c1 i) :
    ∃ m, rapl_msr_amd_core w n = .ok m ∧
      (∀ x ∈ m.core_watts, x = 0) ∧ m.core_sum = 0 := by
  refine ⟨_, rapl_ok w n v c1 p1 c2 p2 hk hopen hpu h1 h2 h3 h4, ?_, ?_⟩
  · intro x hx
    have hx' : x ∈ (List.range (n / 2)).map
        (fun j => ((c2 j : ℚ) * energyUnitScale v - (c1 j : ℚ) * energyUnitScale v) * 10) := hx
    obtain ⟨j, hj, rfl⟩ := List.mem_map.mp hx'
    rw [heq j (List.mem_range.mp hj)]
    ring
  · refine List.sum_eq_zero fun x hx => ?_
    obtain ⟨j, hj, rfl⟩ := List.mem_map.mp hx
    rw [heq j (List.mem_range.mp hj)]
    ring

/-- C8 witness: both passes read 4242 on every core; watts and total are 0. -/
theorem flat_counters_zero_witness :
    ∃ m, rapl_msr_amd_core demoFlat 2 = .ok m ∧
      (∀ x ∈ m.core_watts, x = 0) ∧ m.core_sum = 0 :=
  flat_counters_zero demoFlat 2 0x0A00 (fun _ => 4242) (fun _ => 5000) (fun _ => 4242)
    (fun _ => 7000) (by decide) (fun i _ => rfl) rfl (fun i _ => rfl) (fun i _ => rfl)
    (fun i _ => rfl) (fun i _ => rfl) (fun i _ => rfl)

/-- C10: the sampler touches only cores `0 .. n/2 - 1`: its entire result is
unchanged by arbitrary changes to opens/reads at indices `>= n/2`, and on
success the per-core watts sequence has length exactly `n/2`. -/
theorem sampler_samples_half (w w' : MsrWorld) (n : Nat)
    (hopen : ∀ i < n / 2, w.openOk i = w'.openOk i)
    (hA : ∀ i < n / 2, ∀ a, w.readA i a = w'.readA i a)
    (hB : ∀ i < n / 2, ∀ a, w.readB i a = w'.readB i a) :
    rapl_msr_amd_core w n = rapl_msr_amd_core w' n ∧
    ∀ m, rapl_msr_amd_core w n = .ok m → m.core_watts.length = n / 2 := by
  refine ⟨?_, fun m hm => rapl_ok_length w n m hm⟩
  have hall : (List.range (n / 2)).all w.openOk = (List.range (n / 2)).all w'.openOk :=
    list_all_congr _ _ _ fun i hi => hopen i (List.mem_range.mp hi)
  by_cases h0 : n / 2 = 0
  · simp [rapl_msr_amd_core, h0]
  · have hk : 0 < n / 2 := Nat.pos_of_ne_zero h0
    have hpu : w.readA 0 AMD_MSR_PWR_UNIT = w'.readA 0 AMD_MSR_PWR_UNIT :=
      hA 0 hk AMD_MSR_PWR_UNIT
    have hPA : ∀ u : ℚ, readPassAux w.readA u (List.range (n / 2)) =
        readPassAux w'.readA u (List.range (n / 2)) :=
      fun u => readPassAux_congr _ _ u _ fun i hi a => hA i (List.mem_range.mp hi) a
    have hPB : ∀ u : ℚ, readPassAux w.readB u (List.range (n / 2)) =
        readPassAux w'.readB u (List.range (n / 2)) :=
      fun u => readPassAux_congr _ _ u _ fun i hi a => hB i (List.mem_range.mp hi) a
    rw [rapl_msr_amd_core, rapl_msr_amd_core, hall]
    simp only [hpu, hPA, hPB]

/-- C10 witness: with 2 detected cores only core 0 is sampled; destroying
core 1's second-pass reads changes nothing, and one watt value is emitted. -/
theorem sampler_samples_half_witness :
    rapl_msr_amd_core demoW 2 = rapl_msr_amd_core demoWJunk 2 ∧
    ∀ m, rapl_msr_amd_core demoW 2 = .ok m → m.core_watts.length = 1 := by
  have h :=
    sampler_samples_half demoW demoWJunk 2 (fun i _ => rfl) (fun i _ a => rfl)
      (fun i hi a => by
        have h0 : i = 0 := Nat.lt_one_iff.mp hi
        subst h0
        rfl)
  exact ⟨h.1, h.2⟩
